import Mathlib

/-!
Verification development for the ExistentialSpecializer SIL optimizer pass
(lib/SILOptimizer/FunctionSignatureTransforms/ExistentialSpecializer.cpp).

The pass is shallowly embedded: the IR entities it inspects become Lean
structures carrying exactly the attributes the pass reads, and each C++
function becomes a pure Lean function mirroring its control flow.  External
collaborators (the concrete-type resolver `ConcreteExistentialInfo`, the
rewriter `ExistentialTransform`, the pass manager) are out of scope of the
component and appear as oracle data / function parameters, as the design
document specifies their interfaces.
-/

/-- Existential representation kinds of a SIL type
(`ExistentialRepresentation` in the Swift compiler). -/
inductive ExistentialRepresentation where
  | None
  | Opaque
  | Class
  | Metatype
  | Boxed
  deriving DecidableEq, Repr, Inhabited

/-- Access kinds for an opened existential (`OpenedExistentialAccess`). -/
inductive OpenedExistentialAccess where
  | Immutable
  | Mutable
  deriving DecidableEq, Repr, Inhabited

/-- Inline strategies of a SIL function (`Inline_t`). -/
inductive Inline_t where
  | InlineDefault
  | NoInline
  | AlwaysInline
  deriving DecidableEq, Repr, Inhabited

/-- SIL linkage kinds (`SILLinkage`). -/
inductive SILLinkage where
  | Public
  | PublicNonABI
  | Hidden
  | Shared
  | Private
  | PublicExternal
  | HiddenExternal
  | SharedExternal
  | PrivateExternal
  deriving DecidableEq, Repr, Inhabited

/-- Embeds `swift::isAvailableExternally(SILLinkage)`: linkages at or past
`PublicExternal` in the enum order mark a body owned by another unit. -/
def isAvailableExternally (linkage : SILLinkage) : Bool :=
  match linkage with
  | SILLinkage.PublicExternal => true
  | SILLinkage.HiddenExternal => true
  | SILLinkage.SharedExternal => true
  | SILLinkage.PrivateExternal => true
  | _ => false

/-- Function-type representations (`SILFunctionTypeRepresentation`). -/
inductive SILFunctionTypeRepresentation where
  | Thick
  | Block
  | Thin
  | CFunctionPointer
  | Method
  | ObjCMethod
  | WitnessMethod
  | Closure
  deriving DecidableEq, Repr, Inhabited

/-- Parameter-passing conventions of SIL (`ParameterConvention`). -/
inductive ParameterConvention where
  | Indirect_In
  | Indirect_In_Constant
  | Indirect_In_Guaranteed
  | Indirect_Inout
  | Indirect_InoutAliasable
  | Direct_Owned
  | Direct_Unowned
  | Direct_Guaranteed
  deriving DecidableEq, Repr, Inhabited

/-- A formal parameter of the callee's lowered type (`SILParameterInfo`):
the pass only reads its convention. -/
structure SILParameterInfo where
  convention : ParameterConvention
  deriving DecidableEq, Repr, Inhabited

/-- Embeds `SILParameterInfo::isIndirectMutating`: inout conventions. -/
def SILParameterInfo.isIndirectMutating (p : SILParameterInfo) : Bool :=
  match p.convention with
  | ParameterConvention.Indirect_Inout => true
  | ParameterConvention.Indirect_InoutAliasable => true
  | _ => false

/-- Embeds `SILParameterInfo::isConsumed`: conventions transferring ownership
into the callee. -/
def SILParameterInfo.isConsumed (p : SILParameterInfo) : Bool :=
  match p.convention with
  | ParameterConvention.Indirect_In => true
  | ParameterConvention.Indirect_In_Constant => true
  | ParameterConvention.Direct_Owned => true
  | _ => false

/-- A SIL type, restricted to the queries the pass performs on it:
`isExistentialType()`, `isAnyObject()`, `getASTType()->isAny()` and
`getPreferredExistentialRepresentation(module)` (the module argument is
dropped: the preferred representation is recorded on the type itself). -/
structure SILType where
  isExistentialType : Bool
  isAnyObject : Bool
  isAny : Bool
  preferredExistentialRepresentation : ExistentialRepresentation
  deriving DecidableEq, Repr, Inhabited

/-- Kinds of callee-body instructions that may use a function argument; the
pass only discriminates `isa<DestroyAddrInst>`, so every other instruction
collapses to `OtherInst`. -/
inductive SILInstKind where
  | DestroyAddrInst
  | OtherInst
  deriving DecidableEq, Repr, Inhabited

/-- A use record of a SIL value (`Operand`): the pass reads only the using
instruction's kind (`Operand::getUser`). -/
structure Operand where
  user : SILInstKind
  deriving DecidableEq, Repr, Inhabited

/-- A function argument of the callee's entry block
(`SILFunctionArgument`), with its type and its ordered use list
(`SILValue::getUses`). -/
structure FunctionArgument where
  type : SILType
  uses : List Operand
  deriving DecidableEq, Repr, Inhabited

/-- The body of a SIL function, reduced to what the pass reads from it: the
entry block's function arguments (`F->begin()->getFunctionArguments()`). -/
structure FunctionBody where
  functionArguments : List FunctionArgument
  deriving DecidableEq, Repr, Inhabited

/-- A SIL function, carrying the attributes the pass queries.  `body` is
`none` for a declaration without a definition; `hasIndirectSILResults`
stands for `getConventions().hasIndirectSILResults()`, `hasErrorResult` for
`getLoweredFunctionType()->hasErrorResult()`. -/
structure SILFunction where
  name : String
  shouldOptimize : Bool
  hasIndirectSILResults : Bool
  hasErrorResult : Bool
  inlineStrategy : Inline_t
  linkage : SILLinkage
  representation : SILFunctionTypeRepresentation
  isSerialized : Bool
  body : Option FunctionBody
  deriving DecidableEq, Repr, Inhabited

/-- Embeds `SILFunction::isDefinition`: a function is a definition exactly when it
has a body. -/
def SILFunction.isDefinition (F : SILFunction) : Bool :=
  F.body.isSome

/-- Resolved concrete type of an existential value (`CanType`), abstract
here: only its presence matters to the pass. -/
structure CanType where
  typeName : String
  deriving DecidableEq, Repr, Inhabited

/-- A full apply site (`FullApplySite`).  `referencedFunction` is
`getReferencedFunction()` (`none` for an indirect or virtual call);
`argConcreteTypes` records, per applied-argument position, the answer of
the external concrete-type resolver
(`ConcreteExistentialInfo(ArgOper.get(), ArgOper.getUser()).ConcreteType`),
an out-of-scope collaborator the design document specifies as
`resolve(argumentValue, producingInstruction) -> optional ConcreteType`;
`origCalleeParamInfos` lists `getOrigCalleeConv().getParamInfoForSILArg(i)`
by SIL argument index. -/
structure FullApplySite where
  referencedFunction : Option SILFunction
  calleeArgIndexOfFirstAppliedArg : Nat
  argConcreteTypes : List (Option CanType)
  origCalleeParamInfos : List SILParameterInfo
  deriving DecidableEq, Repr, Inhabited

/-- Embeds `ExistentialSpecializer::canSpecializeCalleeFunction`: the Callee
Eligibility Filter, a pure predicate over the apply's callee mirroring the
C++ chain of early returns. -/
def canSpecializeCalleeFunction (Apply : FullApplySite) : Bool :=
  match Apply.referencedFunction with
  | none => false
  | some Callee =>
    if !Callee.shouldOptimize then false
    else if !Callee.isDefinition then false
    else if Callee.hasIndirectSILResults then false
    else if Callee.hasErrorResult then false
    else if Callee.inlineStrategy == Inline_t.AlwaysInline then false
    else if isAvailableExternally Callee.linkage then false
    else
      match Callee.representation with
      | SILFunctionTypeRepresentation.ObjCMethod => false
      | SILFunctionTypeRepresentation.Block => false
      | _ => true

/-- The representation switch of the Filter as a Boolean formula. -/
lemma representationSwitch_eq (rep : SILFunctionTypeRepresentation) :
    (match rep with
      | SILFunctionTypeRepresentation.ObjCMethod => false
      | SILFunctionTypeRepresentation.Block => false
      | _ => true) =
    (!(rep == SILFunctionTypeRepresentation.ObjCMethod) &&
     !(rep == SILFunctionTypeRepresentation.Block)) := by
  cases rep <;> rfl

/-- The Filter on a resolvable callee equals the conjunction of its
individual checks. -/
lemma canSpecializeCalleeFunction_some (C : SILFunction) (idx : Nat)
    (cts : List (Option CanType)) (pis : List SILParameterInfo) :
    canSpecializeCalleeFunction ⟨some C, idx, cts, pis⟩ =
      (C.shouldOptimize && C.isDefinition && !C.hasIndirectSILResults &&
       !C.hasErrorResult && !(C.inlineStrategy == Inline_t.AlwaysInline) &&
       !(isAvailableExternally C.linkage) &&
       !(C.representation == SILFunctionTypeRepresentation.ObjCMethod) &&
       !(C.representation == SILFunctionTypeRepresentation.Block)) := by
  rcases C with ⟨nm, so, ir, er, inl, lk, rep, ser, body⟩
  show (if _ then _ else _) = _
  rw [representationSwitch_eq]
  cases so <;> cases body <;> cases ir <;> cases er <;> cases inl <;>
    cases hlk : isAvailableExternally lk <;> rfl

/-- Claim C1: the Callee Eligibility Filter returns `false` iff at least
one rejection condition holds for the apply site's callee — unresolvable
direct callee, not optimizable, no body, indirect SIL result, error
result, `AlwaysInline` strategy, available-externally linkage, or
ObjCMethod/Block representation — and returns `true` when none holds.
The Filter is a pure function of the apply site (it is a plain `def`
reading only its argument), so it has no side effects. -/
theorem canSpecializeCalleeFunction_false_iff (Apply : FullApplySite) :
    canSpecializeCalleeFunction Apply = false ↔
      (Apply.referencedFunction = none ∨
       ∃ Callee, Apply.referencedFunction = some Callee ∧
         (Callee.shouldOptimize = false ∨
          Callee.isDefinition = false ∨
          Callee.hasIndirectSILResults = true ∨
          Callee.hasErrorResult = true ∨
          Callee.inlineStrategy = Inline_t.AlwaysInline ∨
          isAvailableExternally Callee.linkage = true ∨
          Callee.representation = SILFunctionTypeRepresentation.ObjCMethod ∨
          Callee.representation = SILFunctionTypeRepresentation.Block)) := by
  rcases Apply with ⟨rf, idx, cts, pis⟩
  rcases rf with _ | C
  · simp [canSpecializeCalleeFunction]
  · rw [canSpecializeCalleeFunction_some]
    simp only [Option.some.injEq, reduceCtorEq, false_or, exists_eq_left']
    simp
    simp only [← Bool.not_eq_true]
    tauto

/-- Per-eligible-argument attributes recorded for the rewrite
(`ExistentialTransformArgumentDescriptor`). -/
structure ExistentialTransformArgumentDescriptor where
  AccessType : OpenedExistentialAccess
  DestroyAddrUse : Bool
  deriving DecidableEq, Repr, Inhabited

/-- Embeds `findIfCalleeUsesArgInDestroyUse`: walk the argument's use list and set
`DestroyAddrUse` as soon as a user is a `destroy_addr`; the C++ `break`
becomes returning at the first hit. -/
def findIfCalleeUsesArgInDestroyUse (uses : List Operand)
    (ETAD : ExistentialTransformArgumentDescriptor) :
    ExistentialTransformArgumentDescriptor :=
  match uses with
  | [] => ETAD
  | ArgUse :: rest =>
    if ArgUse.user == SILInstKind.DestroyAddrInst then
      { ETAD with DestroyAddrUse := true }
    else
      findIfCalleeUsesArgInDestroyUse rest ETAD

/-- The descriptor `ETAD` as first constructed at source lines 138-143:
`AccessType` from the parameter convention obtained through
`getOrigCalleeConv().getParamInfoForSILArg(Idx)`, `DestroyAddrUse`
initialized to `false`. -/
def accessDescriptor (Apply : FullApplySite) (Idx : Nat) :
    ExistentialTransformArgumentDescriptor :=
  { AccessType :=
      if (Apply.origCalleeParamInfos.getD Idx default).isIndirectMutating ||
         (Apply.origCalleeParamInfos.getD Idx default).isConsumed then
        OpenedExistentialAccess.Mutable
      else
        OpenedExistentialAccess.Immutable,
    DestroyAddrUse := false }

/-- One iteration of the Analyzer's argument loop (the body of the `for`
in `canSpecializeExistentialArgsInFunction`): `none` when the iteration
skips the argument (`continue`), `some ETAD` when it inserts descriptor
`ETAD` for index `Idx`.  Mirrors source lines 101-155: the
existential/Any/AnyObject guard, the representation guard, the
concrete-type lookup (`if (!ConcreteType) continue` becomes the
`= none` test), and the conditional destroy-use scan. -/
def analyzeArg (Apply : FullApplySite) (CalleeArgs : List FunctionArgument)
    (Idx : Nat) : Option ExistentialTransformArgumentDescriptor :=
  if !(CalleeArgs.getD Idx default).type.isExistentialType ||
      (CalleeArgs.getD Idx default).type.isAnyObject ||
      (CalleeArgs.getD Idx default).type.isAny then
    none
  else if ((CalleeArgs.getD Idx default).type.preferredExistentialRepresentation !=
            ExistentialRepresentation.Opaque) &&
          ((CalleeArgs.getD Idx default).type.preferredExistentialRepresentation !=
            ExistentialRepresentation.Class) then
    none
  else if Apply.argConcreteTypes.getD Idx none = none then
    none
  else if !((CalleeArgs.getD Idx default).type.preferredExistentialRepresentation ==
            ExistentialRepresentation.Class) then
    some (findIfCalleeUsesArgInDestroyUse (CalleeArgs.getD Idx default).uses
      (accessDescriptor Apply Idx))
  else
    some (accessDescriptor Apply Idx)

/-- Outcome of `canSpecializeExistentialArgsInFunction`.  `fault` models
the undefined dereference of a null `getReferencedFunction()` or of the
missing entry block of a bodiless callee; `abort` models failure of the
assertion `Apply.getCalleeArgIndexOfFirstAppliedArg() == 0`; `ok` carries
the out-parameter descriptor map (as its list of insertions, performed in
increasing index order, so keys are distinct) together with the returned
flag. -/
inductive AnalyzerResult where
  | fault
  | abort
  | ok (ExistentialArgDescriptor :
          List (Nat × ExistentialTransformArgumentDescriptor))
       (returnFlag : Bool)
  deriving DecidableEq, Repr

/-- Loop-state transformer for one index of the Analyzer's argument loop:
threading the descriptor map and the `returnFlag |= true` accumulation. -/
def analyzeLoopStep (Apply : FullApplySite)
    (CalleeArgs : List FunctionArgument)
    (acc : List (Nat × ExistentialTransformArgumentDescriptor) × Bool)
    (Idx : Nat) :
    List (Nat × ExistentialTransformArgumentDescriptor) × Bool :=
  match analyzeArg Apply CalleeArgs Idx with
  | none => acc
  | some ETAD => (acc.1 ++ [(Idx, ETAD)], true)

/-- Embeds `ExistentialSpecializer::canSpecializeExistentialArgsInFunction`: the
Argument Eligibility Analyzer.  It dereferences the referenced function
and its entry block unchecked (`fault` when absent), asserts that the
callee argument index of the first applied argument is 0 (`abort` on
violation), then scans the callee's function arguments in index order. -/
def canSpecializeExistentialArgsInFunction (Apply : FullApplySite) :
    AnalyzerResult :=
  match Apply.referencedFunction with
  | none => AnalyzerResult.fault
  | some F =>
    match F.body with
    | none => AnalyzerResult.fault
    | some body =>
      if Apply.calleeArgIndexOfFirstAppliedArg = 0 then
        let CalleeArgs := body.functionArguments
        let r := (List.range CalleeArgs.length).foldl
          (analyzeLoopStep Apply CalleeArgs) ([], false)
        AnalyzerResult.ok r.1 r.2
      else
        AnalyzerResult.abort

/-- The descriptor-map entry the Analyzer inserts for one index, when it
inserts one. -/
def descriptorEntry (Apply : FullApplySite)
    (CalleeArgs : List FunctionArgument) (Idx : Nat) :
    Option (Nat × ExistentialTransformArgumentDescriptor) :=
  (analyzeArg Apply CalleeArgs Idx).map (fun ETAD => (Idx, ETAD))

lemma findIfCalleeUsesArgInDestroyUse_AccessType
    (uses : List Operand) (ETAD : ExistentialTransformArgumentDescriptor) :
    (findIfCalleeUsesArgInDestroyUse uses ETAD).AccessType =
      ETAD.AccessType := by
  induction uses with
  | nil => rfl
  | cons u rest ih =>
    by_cases h : (u.user == SILInstKind.DestroyAddrInst) = true <;>
      simp [findIfCalleeUsesArgInDestroyUse, h, ih]

lemma findIfCalleeUsesArgInDestroyUse_DestroyAddrUse
    (uses : List Operand) (ETAD : ExistentialTransformArgumentDescriptor) :
    (findIfCalleeUsesArgInDestroyUse uses ETAD).DestroyAddrUse =
      (ETAD.DestroyAddrUse ||
        uses.any fun u => u.user == SILInstKind.DestroyAddrInst) := by
  induction uses with
  | nil => simp [findIfCalleeUsesArgInDestroyUse]
  | cons u rest ih =>
    by_cases h : (u.user == SILInstKind.DestroyAddrInst) = true <;>
      simp [findIfCalleeUsesArgInDestroyUse, h, ih]

lemma analyzeLoop_map_eq (Apply : FullApplySite)
    (CalleeArgs : List FunctionArgument) (l : List Nat)
    (acc : List (Nat × ExistentialTransformArgumentDescriptor) × Bool) :
    (l.foldl (analyzeLoopStep Apply CalleeArgs) acc).1 =
      acc.1 ++ l.filterMap (descriptorEntry Apply CalleeArgs) := by
  induction l generalizing acc with
  | nil => simp
  | cons i rest ih =>
    rw [List.foldl_cons, List.filterMap_cons, ih]
    cases h : analyzeArg Apply CalleeArgs i <;>
      simp [analyzeLoopStep, descriptorEntry, h]

lemma analyzeLoop_flag_eq (Apply : FullApplySite)
    (CalleeArgs : List FunctionArgument) (l : List Nat)
    (acc : List (Nat × ExistentialTransformArgumentDescriptor) × Bool) :
    (l.foldl (analyzeLoopStep Apply CalleeArgs) acc).2 =
      (acc.2 || l.any fun i => (analyzeArg Apply CalleeArgs i).isSome) := by
  induction l generalizing acc with
  | nil => simp
  | cons i rest ih =>
    rw [List.foldl_cons, List.any_cons, ih]
    cases h : analyzeArg Apply CalleeArgs i <;>
      simp [analyzeLoopStep, h, Bool.or_assoc]

lemma canSpecializeExistentialArgsInFunction_ok_cases (Apply : FullApplySite)
    (descMap : List (Nat × ExistentialTransformArgumentDescriptor))
    (flag : Bool)
    (h : canSpecializeExistentialArgsInFunction Apply =
          AnalyzerResult.ok descMap flag) :
    ∃ F body, Apply.referencedFunction = some F ∧ F.body = some body ∧
      Apply.calleeArgIndexOfFirstAppliedArg = 0 ∧
      descMap = (List.range body.functionArguments.length).filterMap
        (descriptorEntry Apply body.functionArguments) ∧
      flag = ((List.range body.functionArguments.length).any
        fun i => (analyzeArg Apply body.functionArguments i).isSome) := by
  cases hF : Apply.referencedFunction with
  | none => simp [canSpecializeExistentialArgsInFunction, hF] at h
  | some F =>
    cases hb : F.body with
    | none => simp [canSpecializeExistentialArgsInFunction, hF, hb] at h
    | some body =>
      by_cases h0 : Apply.calleeArgIndexOfFirstAppliedArg = 0
      · refine ⟨F, body, rfl, hb, h0, ?_⟩
        simp only [canSpecializeExistentialArgsInFunction, hF, hb, h0,
          if_true, analyzeLoop_map_eq, analyzeLoop_flag_eq] at h
        rcases h with ⟨h1, h2⟩
        simp_all
      · simp [canSpecializeExistentialArgsInFunction, hF, hb, h0] at h

lemma mem_filterMap_descriptorEntry (Apply : FullApplySite)
    (CalleeArgs : List FunctionArgument) (Idx : Nat)
    (ETAD : ExistentialTransformArgumentDescriptor)
    (hmem : (Idx, ETAD) ∈ (List.range CalleeArgs.length).filterMap
              (descriptorEntry Apply CalleeArgs)) :
    Idx < CalleeArgs.length ∧
      analyzeArg Apply CalleeArgs Idx = some ETAD := by
  rcases List.mem_filterMap.mp hmem with ⟨i, hi, hf⟩
  unfold descriptorEntry at hf
  cases h : analyzeArg Apply CalleeArgs i with
  | none => rw [h] at hf; simp at hf
  | some e =>
    rw [h] at hf
    simp only [Option.map, Option.some.injEq, Prod.mk.injEq] at hf
    obtain ⟨rfl, rfl⟩ := hf
    exact ⟨List.mem_range.mp hi, h⟩

lemma analyzeArg_some_inv (Apply : FullApplySite)
    (CalleeArgs : List FunctionArgument) (Idx : Nat)
    (ETAD : ExistentialTransformArgumentDescriptor)
    (h : analyzeArg Apply CalleeArgs Idx = some ETAD) :
    (CalleeArgs.getD Idx default).type.isExistentialType = true ∧
    (CalleeArgs.getD Idx default).type.isAnyObject = false ∧
    (CalleeArgs.getD Idx default).type.isAny = false ∧
    ((CalleeArgs.getD Idx default).type.preferredExistentialRepresentation =
        ExistentialRepresentation.Opaque ∨
     (CalleeArgs.getD Idx default).type.preferredExistentialRepresentation =
        ExistentialRepresentation.Class) ∧
    (Apply.argConcreteTypes.getD Idx none).isSome = true ∧
    ETAD.AccessType =
      (if (Apply.origCalleeParamInfos.getD Idx default).isIndirectMutating ||
          (Apply.origCalleeParamInfos.getD Idx default).isConsumed then
        OpenedExistentialAccess.Mutable
       else OpenedExistentialAccess.Immutable) ∧
    ETAD.DestroyAddrUse =
      (if (CalleeArgs.getD Idx default).type.preferredExistentialRepresentation =
          ExistentialRepresentation.Class then
        false
       else
        (CalleeArgs.getD Idx default).uses.any
          fun u => u.user == SILInstKind.DestroyAddrInst) := by
  unfold analyzeArg at h
  by_cases hg1 : (!(CalleeArgs.getD Idx default).type.isExistentialType ||
      (CalleeArgs.getD Idx default).type.isAnyObject ||
      (CalleeArgs.getD Idx default).type.isAny) = true
  · rw [if_pos hg1] at h
    exact absurd h (by simp)
  · rw [if_neg hg1] at h
    simp only [Bool.or_eq_true, not_or, Bool.not_eq_true,
      Bool.not_eq_false'] at hg1
    obtain ⟨⟨hex, hao⟩, han⟩ := hg1
    by_cases hg2 :
        (((CalleeArgs.getD Idx default).type.preferredExistentialRepresentation !=
            ExistentialRepresentation.Opaque) &&
         ((CalleeArgs.getD Idx default).type.preferredExistentialRepresentation !=
            ExistentialRepresentation.Class)) = true
    · rw [if_pos hg2] at h
      exact absurd h (by simp)
    · rw [if_neg hg2] at h
      simp only [Bool.and_eq_true, bne_iff_ne, ne_eq, not_and_or,
        not_not] at hg2
      by_cases hct : Apply.argConcreteTypes.getD Idx none = none
      · rw [if_pos hct] at h
        exact absurd h (by simp)
      · rw [if_neg hct] at h
        by_cases hrep :
            (!((CalleeArgs.getD Idx default).type.preferredExistentialRepresentation ==
                ExistentialRepresentation.Class)) = true
        · rw [if_pos hrep] at h
          have hrepC :
              (CalleeArgs.getD Idx default).type.preferredExistentialRepresentation ≠
                ExistentialRepresentation.Class := by
            simpa using hrep
          have hE := Option.some.inj h
          subst hE
          refine ⟨hex, hao, han, hg2, Option.isSome_iff_ne_none.mpr hct,
            ?_, ?_⟩
          · rw [findIfCalleeUsesArgInDestroyUse_AccessType]
            rfl
          · rw [findIfCalleeUsesArgInDestroyUse_DestroyAddrUse, if_neg hrepC]
            exact Bool.false_or _
        · rw [if_neg hrep] at h
          have hrepC :
              (CalleeArgs.getD Idx default).type.preferredExistentialRepresentation =
                ExistentialRepresentation.Class := by
            simpa using hrep
          have hE := Option.some.inj h
          subst hE
          exact ⟨hex, hao, han, Or.inr hrepC,
            Option.isSome_iff_ne_none.mpr hct, rfl,
            by rw [if_pos hrepC]; rfl⟩

/-- Demangler specialization pass tags (`Demangle::SpecializationPass`);
the orchestrator seeds the mangler with `FunctionSignatureOpts`. -/
inductive SpecializationPass where
  | AllocBoxToStack
  | ClosureSpecializer
  | CapturePromotion
  | CapturePropagation
  | FunctionSignatureOpts
  | GenericSpecializer
  deriving DecidableEq, Repr

/-- The mangler the orchestrator constructs
(`Mangle::FunctionSignatureSpecializationMangler(P, isSerialized, Callee)`):
a deterministic function of the pass tag, the callee's serialization state
and the callee identity, matching the design document's
`mangle(specializationTag, serializationState, calleeIdentity)`. -/
structure FunctionSignatureSpecializationMangler where
  pass : SpecializationPass
  isSerialized : Bool
  function : SILFunction
  deriving DecidableEq, Repr

/-- The mangler built at source lines 247-249. -/
def manglerOf (Callee : SILFunction) :
    FunctionSignatureSpecializationMangler :=
  { pass := SpecializationPass.FunctionSignatureOpts,
    isSerialized := Callee.isSerialized,
    function := Callee }

/-- Positional argument descriptor
(`ArgumentDescriptor(Args[i], Allocator)`); the bump allocator only
manages memory and is dropped. -/
structure ArgumentDescriptor where
  arg : FunctionArgument
  deriving DecidableEq, Repr

/-- The full positional parameter-descriptor list the orchestrator
assembles at source lines 252-257: one `ArgumentDescriptor` per callee
entry-block function argument, in index order, eligible or not. -/
def buildArgumentDescList (body : FunctionBody) : List ArgumentDescriptor :=
  body.functionArguments.map (fun a => { arg := a })

/-- Invalidation scopes (`SILAnalysis::InvalidationKind`); the
orchestrator always uses `Everything`. -/
inductive InvalidationKind where
  | Instructions
  | Calls
  | Branches
  | Everything
  deriving DecidableEq, Repr

/-- Outbound bookkeeping messages to the pass manager, modelling worklist
and cache mutation as messages as the design document directs:
`addFunctionToPassManagerWorklist(newFn, derivedFrom)` and
`PM->invalidateAnalysis(fn, kind)`. -/
inductive PMEvent where
  | addFunctionToPassManagerWorklist (newFn : SILFunction)
      (derivedFrom : SILFunction)
  | invalidateAnalysis (fn : SILFunction) (kind : InvalidationKind)
  deriving DecidableEq, Repr

/-- The external Rewriter (`ExistentialTransform`): from the callee, the
mangler, the full positional descriptor list and the eligible-argument
map, `ET.run()` either rewrites and exposes the new specialized function
(`ET.getExistentialSpecializedFunction()`), or declines.  It is an
out-of-scope collaborator (`rewrite(callee, stableName,
fullParameterDescriptors, eligibleArgumentMap) -> success(newFunction) |
failure`), hence a parameter of the orchestrator. -/
def Rewriter : Type :=
  SILFunction → FunctionSignatureSpecializationMangler →
    List ArgumentDescriptor →
    List (Nat × ExistentialTransformArgumentDescriptor) →
    Option SILFunction

/-- A caller-body instruction as the orchestrator's loop sees it: either a
full apply site or any other instruction. -/
inductive SILInstruction where
  | fullApply (Apply : FullApplySite)
  | other
  deriving DecidableEq, Repr

/-- Embeds `FullApplySite::isa(I)`: the dynamic cast of an instruction to a full
apply site. -/
def FullApplySite.isa (I : SILInstruction) : Option FullApplySite :=
  match I with
  | SILInstruction.fullApply Apply => some Apply
  | SILInstruction.other => none

/-- Orchestrator bookkeeping state: the statistic counter
`NumFunctionsWithExistentialArgsSpecialized` and the ordered list of
messages sent to the pass manager. -/
structure OrchState where
  NumFunctionsWithExistentialArgsSpecialized : Nat
  events : List PMEvent
  deriving DecidableEq, Repr

/-- One iteration of the orchestrator's instruction loop (source lines
210-284).  `none` models the run dying: the Analyzer faulting, or its
assertion aborting, or the unchecked callee dereferences at lines 226 and
254 failing (the Filter's guarantees rule all of these out on the paths
taken).  A rejection by Filter, Analyzer, or Rewriter leaves the
bookkeeping state unchanged; a successful rewrite increments the counter,
enqueues the new function, and invalidates the callee's analyses. -/
def processInstruction (rewriter : Rewriter) (st : OrchState)
    (I : SILInstruction) : Option OrchState :=
  match FullApplySite.isa I with
  | none => some st
  | some Apply =>
    if !canSpecializeCalleeFunction Apply then
      some st
    else
      match canSpecializeExistentialArgsInFunction Apply with
      | AnalyzerResult.fault => none
      | AnalyzerResult.abort => none
      | AnalyzerResult.ok ExistentialArgDescriptor returnFlag =>
        if !returnFlag then
          some st
        else
          match Apply.referencedFunction with
          | none => none
          | some Callee =>
            match Callee.body with
            | none => none
            | some body =>
              match rewriter Callee (manglerOf Callee)
                  (buildArgumentDescList body) ExistentialArgDescriptor with
              | none => some st
              | some newFunction =>
                some { NumFunctionsWithExistentialArgsSpecialized :=
                         st.NumFunctionsWithExistentialArgsSpecialized + 1,
                       events := st.events ++
                         [PMEvent.addFunctionToPassManagerWorklist
                            newFunction Callee,
                          PMEvent.invalidateAnalysis Callee
                            InvalidationKind.Everything] }

/-- Embeds `specializeExistentialArgsInAppliesWithinFunction`: walk the caller's
basic blocks in layout order and each block's instructions in order,
processing every instruction. -/
def specializeExistentialArgsInAppliesWithinFunction (rewriter : Rewriter)
    (blocks : List (List SILInstruction)) (st : OrchState) :
    Option OrchState :=
  blocks.foldlM (fun s BB => BB.foldlM (processInstruction rewriter) s) st

/-- The caller function the pass runs on: its `shouldOptimize` flag and
its basic blocks of instructions. -/
structure CallerFunction where
  shouldOptimize : Bool
  blocks : List (List SILInstruction)

/-- Module options, reduced to the `ExistentialSpecializer` enable flag
read at source line 60. -/
structure SILOptions where
  ExistentialSpecializer : Bool

/-- Embeds `ExistentialSpecializer::run()`: skip the function when it should not
be optimized or the transform is disabled, else orchestrate. -/
def ExistentialSpecializerRun (opts : SILOptions) (rewriter : Rewriter)
    (F : CallerFunction) (st : OrchState) : Option OrchState :=
  if !F.shouldOptimize || !opts.ExistentialSpecializer then
    some st
  else
    specializeExistentialArgsInAppliesWithinFunction rewriter F.blocks st

lemma canSpecializeExistentialArgsInFunction_eq_ok (Apply : FullApplySite)
    (F : SILFunction) (body : FunctionBody)
    (hF : Apply.referencedFunction = some F) (hb : F.body = some body)
    (h0 : Apply.calleeArgIndexOfFirstAppliedArg = 0) :
    canSpecializeExistentialArgsInFunction Apply =
      AnalyzerResult.ok
        ((List.range body.functionArguments.length).filterMap
          (descriptorEntry Apply body.functionArguments))
        ((List.range body.functionArguments.length).any
          fun i => (analyzeArg Apply body.functionArguments i).isSome) := by
  simp [canSpecializeExistentialArgsInFunction, hF, hb, h0,
    analyzeLoop_map_eq, analyzeLoop_flag_eq]

lemma canSpecializeCalleeFunction_true_referenced (Apply : FullApplySite)
    (h : canSpecializeCalleeFunction Apply = true) :
    ∃ Callee body, Apply.referencedFunction = some Callee ∧
      Callee.body = some body := by
  rcases hF : Apply.referencedFunction with _ | C
  · rw [canSpecializeCalleeFunction] at h
    rw [hF] at h
    exact absurd h (by simp)
  · have heq : Apply = ⟨some C, Apply.calleeArgIndexOfFirstAppliedArg,
        Apply.argConcreteTypes, Apply.origCalleeParamInfos⟩ := by
      cases Apply
      simp_all
    rw [heq, canSpecializeCalleeFunction_some] at h
    simp only [Bool.and_eq_true] at h
    have hdef : C.isDefinition = true := by tauto
    rw [SILFunction.isDefinition] at hdef
    obtain ⟨b, hb⟩ := Option.isSome_iff_exists.mp hdef
    exact ⟨C, b, rfl, hb⟩

lemma processInstruction_rewrite_path (rewriter : Rewriter) (st : OrchState)
    (I : SILInstruction) (Apply : FullApplySite) (Callee : SILFunction)
    (body : FunctionBody)
    (descMap : List (Nat × ExistentialTransformArgumentDescriptor))
    (hI : FullApplySite.isa I = some Apply)
    (hfil : canSpecializeCalleeFunction Apply = true)
    (hana : canSpecializeExistentialArgsInFunction Apply =
      AnalyzerResult.ok descMap true)
    (hF : Apply.referencedFunction = some Callee)
    (hb : Callee.body = some body) :
    processInstruction rewriter st I =
      some (match rewriter Callee (manglerOf Callee)
              (buildArgumentDescList body) descMap with
            | none => st
            | some newFunction =>
              { NumFunctionsWithExistentialArgsSpecialized :=
                  st.NumFunctionsWithExistentialArgsSpecialized + 1,
                events := st.events ++
                  [PMEvent.addFunctionToPassManagerWorklist newFunction
                     Callee,
                   PMEvent.invalidateAnalysis Callee
                     InvalidationKind.Everything] }) := by
  rw [processInstruction, hI]
  simp only [hfil, hana, hF, hb, Bool.not_true, Bool.false_eq_true,
    if_false]
  cases rewriter Callee (manglerOf Callee) (buildArgumentDescList body)
    descMap <;> rfl

/-- Claim C2: for every parameter descriptor the Analyzer inserts,
`AccessType = Mutable` iff the callee's parameter-passing convention at
that index is indirect-mutating or consumed; in every other case
`AccessType = Immutable`, and `OpenedExistentialAccess` admits no third
value. -/
theorem accessType_mutable_iff (Apply : FullApplySite)
    (descMap : List (Nat × ExistentialTransformArgumentDescriptor))
    (flag : Bool)
    (h : canSpecializeExistentialArgsInFunction Apply =
          AnalyzerResult.ok descMap flag)
    (Idx : Nat) (ETAD : ExistentialTransformArgumentDescriptor)
    (hmem : (Idx, ETAD) ∈ descMap) :
    (ETAD.AccessType = OpenedExistentialAccess.Mutable ↔
      ((Apply.origCalleeParamInfos.getD Idx default).isIndirectMutating =
          true ∨
       (Apply.origCalleeParamInfos.getD Idx default).isConsumed = true)) ∧
    (ETAD.AccessType ≠ OpenedExistentialAccess.Mutable →
      ETAD.AccessType = OpenedExistentialAccess.Immutable) := by
  obtain ⟨F, body, hF, hb, h0, hdesc, hflag⟩ :=
    canSpecializeExistentialArgsInFunction_ok_cases Apply descMap flag h
  subst hdesc
  obtain ⟨hlt, harg⟩ := mem_filterMap_descriptorEntry Apply
    body.functionArguments Idx ETAD hmem
  obtain ⟨-, -, -, -, -, hacc, -⟩ :=
    analyzeArg_some_inv Apply body.functionArguments Idx ETAD harg
  constructor
  · rw [hacc]
    by_cases hc :
        ((Apply.origCalleeParamInfos.getD Idx default).isIndirectMutating ||
         (Apply.origCalleeParamInfos.getD Idx default).isConsumed) = true
    · rw [if_pos hc]
      exact iff_of_true rfl (by simpa using hc)
    · rw [if_neg hc]
      exact iff_of_false (by simp) (by simpa using hc)
  · intro hne
    cases hAT : ETAD.AccessType with
    | Immutable => rfl
    | Mutable => exact absurd hAT hne

/-- Claim C3: for every descriptor the Analyzer inserts, if the callee
parameter's preferred existential representation is class-reference then
`DestroyAddrUse = false` (the initial value; the scan at source lines
144-147 runs only when the representation differs from `Class`, which on
inserted descriptors means exactly the opaque representation); if the
representation is opaque then `DestroyAddrUse = true` iff some use of the
callee's function argument is a `destroy_addr` instruction, found by the
short-circuiting linear scan `findIfCalleeUsesArgInDestroyUse`. -/
theorem destroyAddrUse_characterization (Apply : FullApplySite)
    (descMap : List (Nat × ExistentialTransformArgumentDescriptor))
    (flag : Bool)
    (h : canSpecializeExistentialArgsInFunction Apply =
          AnalyzerResult.ok descMap flag)
    (Idx : Nat) (ETAD : ExistentialTransformArgumentDescriptor)
    (hmem : (Idx, ETAD) ∈ descMap) :
    ∃ F body, Apply.referencedFunction = some F ∧ F.body = some body ∧
      (((body.functionArguments.getD Idx
            default).type.preferredExistentialRepresentation =
          ExistentialRepresentation.Class →
        ETAD.DestroyAddrUse = false) ∧
       ((body.functionArguments.getD Idx
            default).type.preferredExistentialRepresentation =
          ExistentialRepresentation.Opaque →
        (ETAD.DestroyAddrUse = true ↔
          ∃ ArgUse ∈ (body.functionArguments.getD Idx default).uses,
            ArgUse.user = SILInstKind.DestroyAddrInst))) := by
  obtain ⟨F, body, hF, hb, h0, hdesc, hflag⟩ :=
    canSpecializeExistentialArgsInFunction_ok_cases Apply descMap flag h
  subst hdesc
  obtain ⟨hlt, harg⟩ := mem_filterMap_descriptorEntry Apply
    body.functionArguments Idx ETAD hmem
  obtain ⟨-, -, -, -, -, -, hdu⟩ :=
    analyzeArg_some_inv Apply body.functionArguments Idx ETAD harg
  refine ⟨F, body, hF, hb, ?_, ?_⟩
  · intro hclass
    rw [hdu, if_pos hclass]
  · intro hOpq
    have hne :
        (body.functionArguments.getD Idx
            default).type.preferredExistentialRepresentation ≠
          ExistentialRepresentation.Class := by
      rw [hOpq]
      intro hcontra
      exact absurd hcontra (by simp)
    rw [hdu, if_neg hne, List.any_eq_true]
    constructor
    · rintro ⟨u, hu, hp⟩
      exact ⟨u, hu, by simpa using hp⟩
    · rintro ⟨u, hu, hp⟩
      exact ⟨u, hu, by simpa using hp⟩

/-- Claim C4: every key of the descriptor map the Analyzer produces is the
index of a callee entry-block parameter whose type is existential, is
neither Any nor AnyObject, has preferred existential representation
opaque or class-reference, and for which the external resolver produced a
concrete type at this call site; in particular the two universal
existential types never appear as keys. -/
theorem descriptorMap_keys_sound (Apply : FullApplySite)
    (descMap : List (Nat × ExistentialTransformArgumentDescriptor))
    (flag : Bool)
    (h : canSpecializeExistentialArgsInFunction Apply =
          AnalyzerResult.ok descMap flag)
    (Idx : Nat) (ETAD : ExistentialTransformArgumentDescriptor)
    (hmem : (Idx, ETAD) ∈ descMap) :
    ∃ F body, Apply.referencedFunction = some F ∧ F.body = some body ∧
      Idx < body.functionArguments.length ∧
      (body.functionArguments.getD Idx default).type.isExistentialType =
        true ∧
      (body.functionArguments.getD Idx default).type.isAnyObject = false ∧
      (body.functionArguments.getD Idx default).type.isAny = false ∧
      ((body.functionArguments.getD Idx
          default).type.preferredExistentialRepresentation =
            ExistentialRepresentation.Opaque ∨
       (body.functionArguments.getD Idx
          default).type.preferredExistentialRepresentation =
            ExistentialRepresentation.Class) ∧
      (Apply.argConcreteTypes.getD Idx none).isSome = true := by
  obtain ⟨F, body, hF, hb, h0, hdesc, hflag⟩ :=
    canSpecializeExistentialArgsInFunction_ok_cases Apply descMap flag h
  subst hdesc
  obtain ⟨hlt, harg⟩ := mem_filterMap_descriptorEntry Apply
    body.functionArguments Idx ETAD hmem
  obtain ⟨hex, hao, han, hrep, hct, -, -⟩ :=
    analyzeArg_some_inv Apply body.functionArguments Idx ETAD harg
  exact ⟨F, body, hF, hb, hlt, hex, hao, han, hrep, hct⟩

/-- Claim C8: the Analyzer is pure with respect to the IR — in this
embedding it is a plain function from the apply site to a result, reading
but never producing IR, so the callee, the apply and every instruction
are untouched by construction; its only outputs are the descriptor map
and the returned flag, and the flag is `true` iff at least one descriptor
was inserted into the map. -/
theorem analyzer_flag_iff_descriptor_inserted (Apply : FullApplySite)
    (descMap : List (Nat × ExistentialTransformArgumentDescriptor))
    (flag : Bool)
    (h : canSpecializeExistentialArgsInFunction Apply =
          AnalyzerResult.ok descMap flag) :
    flag = true ↔ descMap ≠ [] := by
  obtain ⟨F, body, hF, hb, h0, hdesc, hflag⟩ :=
    canSpecializeExistentialArgsInFunction_ok_cases Apply descMap flag h
  subst hdesc
  subst hflag
  constructor
  · intro hf
    obtain ⟨i, hi, hsome⟩ := List.any_eq_true.mp hf
    obtain ⟨e, he⟩ := Option.isSome_iff_exists.mp hsome
    have hmem : (i, e) ∈
        (List.range body.functionArguments.length).filterMap
          (descriptorEntry Apply body.functionArguments) :=
      List.mem_filterMap.mpr ⟨i, hi, by rw [descriptorEntry, he]; rfl⟩
    exact List.ne_nil_of_mem hmem
  · intro hne
    obtain ⟨⟨i, e⟩, hmem⟩ := List.exists_mem_of_ne_nil _ hne
    obtain ⟨j, hj, hjf⟩ := List.mem_filterMap.mp hmem
    refine List.any_eq_true.mpr ⟨j, hj, ?_⟩
    rw [descriptorEntry] at hjf
    cases ha : analyzeArg Apply body.functionArguments j with
    | none => rw [ha] at hjf; simp at hjf
    | some e₂ => simp [ha]

/-- Claim C9: the only fatal condition is violation of the structural
invariant that the callee argument index of the first applied argument is
0.  On an apply site accepted by the Filter: if the index is nonzero the
Analyzer aborts (and the orchestrator's step dies rather than rewrite);
if it is 0 the Analyzer never aborts and completes with a result, scanning
with the same index `Idx` into the caller-side applied arguments and the
callee-side parameters. -/
theorem assertion_abort_characterization (Apply : FullApplySite)
    (hf : canSpecializeCalleeFunction Apply = true) :
    (Apply.calleeArgIndexOfFirstAppliedArg ≠ 0 →
      canSpecializeExistentialArgsInFunction Apply =
        AnalyzerResult.abort ∧
      ∀ (rewriter : Rewriter) (st : OrchState) (I : SILInstruction),
        FullApplySite.isa I = some Apply →
        processInstruction rewriter st I = none) ∧
    (Apply.calleeArgIndexOfFirstAppliedArg = 0 →
      ∃ descMap flag,
        canSpecializeExistentialArgsInFunction Apply =
          AnalyzerResult.ok descMap flag) := by
  obtain ⟨C, b, hF, hb⟩ :=
    canSpecializeCalleeFunction_true_referenced Apply hf
  constructor
  · intro hne
    have habort : canSpecializeExistentialArgsInFunction Apply =
        AnalyzerResult.abort := by
      simp [canSpecializeExistentialArgsInFunction, hF, hb, hne]
    refine ⟨habort, ?_⟩
    intro rewriter st I hI
    rw [processInstruction, hI]
    simp [hf, habort]
  · intro h0
    exact ⟨_, _, canSpecializeExistentialArgsInFunction_eq_ok Apply C b
      hF hb h0⟩

/-- Claim C10: whenever an apply site passes the Filter, its referenced
function is non-null and has a body, so the Analyzer's unchecked
dereferences of `getReferencedFunction()` and of the callee's entry block
never fault under the orchestrator's call order (Filter first, Analyzer
second). -/
theorem analyzer_never_faults_after_filter (Apply : FullApplySite)
    (hf : canSpecializeCalleeFunction Apply = true) :
    (∃ Callee, Apply.referencedFunction = some Callee ∧
       Callee.body.isSome = true) ∧
    canSpecializeExistentialArgsInFunction Apply ≠
      AnalyzerResult.fault := by
  obtain ⟨C, b, hF, hb⟩ :=
    canSpecializeCalleeFunction_true_referenced Apply hf
  refine ⟨⟨C, hF, by rw [hb]; rfl⟩, ?_⟩
  by_cases h0 : Apply.calleeArgIndexOfFirstAppliedArg = 0
  · rw [canSpecializeExistentialArgsInFunction_eq_ok Apply C b hF hb h0]
    simp
  · simp [canSpecializeExistentialArgsInFunction, hF, hb, h0]

/-- Claim C5: for every call site the orchestrator visits, if the Filter
rejects the callee, or the Analyzer finds no eligible parameter, or the
Rewriter declines, the orchestrator's step returns the bookkeeping state
unchanged — the counter, the worklist/invalidation message list, and (the
rewrite being the only IR-mutating action, and it not having run or
having declined) the instruction and callee are untouched; a call site is
either fully rewritten or entirely unchanged. -/
theorem rejection_leaves_state_unchanged (rewriter : Rewriter)
    (st : OrchState) (I : SILInstruction) (Apply : FullApplySite)
    (hI : FullApplySite.isa I = some Apply) :
    (canSpecializeCalleeFunction Apply = false →
      processInstruction rewriter st I = some st) ∧
    (∀ descMap, canSpecializeExistentialArgsInFunction Apply =
        AnalyzerResult.ok descMap false →
      processInstruction rewriter st I = some st) ∧
    (∀ descMap Callee body,
      canSpecializeCalleeFunction Apply = true →
      canSpecializeExistentialArgsInFunction Apply =
        AnalyzerResult.ok descMap true →
      Apply.referencedFunction = some Callee →
      Callee.body = some body →
      rewriter Callee (manglerOf Callee) (buildArgumentDescList body)
        descMap = none →
      processInstruction rewriter st I = some st) := by
  refine ⟨?_, ?_, ?_⟩
  · intro hfil
    rw [processInstruction, hI]
    simp [hfil]
  · intro descMap hana
    by_cases hfil : canSpecializeCalleeFunction Apply = true
    · rw [processInstruction, hI]
      simp [hfil, hana]
    · have hfil₂ : canSpecializeCalleeFunction Apply = false := by
        simpa using hfil
      rw [processInstruction, hI]
      simp [hfil₂]
  · intro descMap Callee body hfil hana hF hb hrw
    rw [processInstruction_rewrite_path rewriter st I Apply Callee body
      descMap hI hfil hana hF hb, hrw]

/-- Claim C6: for every call site whose rewrite attempt succeeds, the
orchestrator performs exactly the three bookkeeping actions — counter
incremented by exactly 1, the new specialized function enqueued once on
the pass-manager worklist (derived from the original callee), the
callee's cached analyses invalidated with scope `Everything` — and these
actions happen iff the rewrite succeeded: on rewriter failure at the same
call site nothing changes. -/
theorem success_bookkeeping (rewriter : Rewriter) (st : OrchState)
    (I : SILInstruction) (Apply : FullApplySite) (Callee : SILFunction)
    (body : FunctionBody)
    (descMap : List (Nat × ExistentialTransformArgumentDescriptor))
    (hI : FullApplySite.isa I = some Apply)
    (hfil : canSpecializeCalleeFunction Apply = true)
    (hana : canSpecializeExistentialArgsInFunction Apply =
      AnalyzerResult.ok descMap true)
    (hF : Apply.referencedFunction = some Callee)
    (hb : Callee.body = some body) :
    (∀ newFunction,
      rewriter Callee (manglerOf Callee) (buildArgumentDescList body)
        descMap = some newFunction →
      processInstruction rewriter st I =
        some { NumFunctionsWithExistentialArgsSpecialized :=
                 st.NumFunctionsWithExistentialArgsSpecialized + 1,
               events := st.events ++
                 [PMEvent.addFunctionToPassManagerWorklist newFunction
                    Callee,
                  PMEvent.invalidateAnalysis Callee
                    InvalidationKind.Everything] }) ∧
    (rewriter Callee (manglerOf Callee) (buildArgumentDescList body)
        descMap = none →
      processInstruction rewriter st I = some st) := by
  constructor
  · intro newFunction hrw
    rw [processInstruction_rewrite_path rewriter st I Apply Callee body
      descMap hI hfil hana hF hb, hrw]
  · intro hrw
    rw [processInstruction_rewrite_path rewriter st I Apply Callee body
      descMap hI hfil hana hF hb, hrw]

/-- Claim C7: on every call site where the rewrite is attempted, the
positional parameter-descriptor list handed to the Rewriter is
`buildArgumentDescList body`: it has exactly one entry per callee
entry-block function argument, in index order, covering ineligible
parameters too, and is independent of the eligible-argument map's size. -/
theorem rewriter_receives_full_descriptor_list (rewriter : Rewriter)
    (st : OrchState) (I : SILInstruction) (Apply : FullApplySite)
    (Callee : SILFunction) (body : FunctionBody)
    (descMap : List (Nat × ExistentialTransformArgumentDescriptor))
    (hI : FullApplySite.isa I = some Apply)
    (hfil : canSpecializeCalleeFunction Apply = true)
    (hana : canSpecializeExistentialArgsInFunction Apply =
      AnalyzerResult.ok descMap true)
    (hF : Apply.referencedFunction = some Callee)
    (hb : Callee.body = some body) :
    processInstruction rewriter st I =
      some (match rewriter Callee (manglerOf Callee)
              (buildArgumentDescList body) descMap with
            | none => st
            | some newFunction =>
              { NumFunctionsWithExistentialArgsSpecialized :=
                  st.NumFunctionsWithExistentialArgsSpecialized + 1,
                events := st.events ++
                  [PMEvent.addFunctionToPassManagerWorklist newFunction
                     Callee,
                   PMEvent.invalidateAnalysis Callee
                     InvalidationKind.Everything] }) ∧
    (buildArgumentDescList body).length =
      body.functionArguments.length ∧
    ∀ i, (buildArgumentDescList body).get? i =
      (body.functionArguments.get? i).map (fun a => { arg := a }) := by
  refine ⟨processInstruction_rewrite_path rewriter st I Apply Callee body
    descMap hI hfil hana hF hb, ?_, ?_⟩
  · exact List.length_map _ _
  · intro i
    exact List.get?_map _ _ _

/-- Example: an opaque-representation existential parameter type. -/
def exOpaqueType : SILType :=
  { isExistentialType := true, isAnyObject := false, isAny := false,
    preferredExistentialRepresentation := ExistentialRepresentation.Opaque }

/-- Example: a class-reference existential parameter type. -/
def exClassType : SILType :=
  { isExistentialType := true, isAnyObject := false, isAny := false,
    preferredExistentialRepresentation := ExistentialRepresentation.Class }

/-- Example: an opaque existential argument with a `destroy_addr` use. -/
def exArgOpaque : FunctionArgument :=
  { type := exOpaqueType,
    uses := [{ user := SILInstKind.DestroyAddrInst }] }

/-- Example: a class existential argument with no uses. -/
def exArgClass : FunctionArgument :=
  { type := exClassType, uses := [] }

/-- Example: the entry block of a callee with two existential params. -/
def exBody : FunctionBody :=
  { functionArguments := [exArgOpaque, exArgClass] }

/-- Example: an eligible callee with two existential parameters. -/
def exCallee : SILFunction :=
  { name := "callee", shouldOptimize := true,
    hasIndirectSILResults := false, hasErrorResult := false,
    inlineStrategy := Inline_t.InlineDefault,
    linkage := SILLinkage.Public,
    representation := SILFunctionTypeRepresentation.Thin,
    isSerialized := false, body := some exBody }

/-- Example: an apply of `exCallee` where only the first argument's
concrete type is resolvable. -/
def exApply : FullApplySite :=
  { referencedFunction := some exCallee,
    calleeArgIndexOfFirstAppliedArg := 0,
    argConcreteTypes := [some { typeName := "ConcreteA" }, none],
    origCalleeParamInfos :=
      [{ convention := ParameterConvention.Indirect_In },
       { convention := ParameterConvention.Indirect_In_Guaranteed }] }

/-- Example: the descriptor the Analyzer computes for argument 0 of
`exApply`. -/
def exETAD : ExistentialTransformArgumentDescriptor :=
  { AccessType := OpenedExistentialAccess.Mutable, DestroyAddrUse := true }

/-- Example: the descriptor map the Analyzer computes on `exApply`. -/
def exDescMap : List (Nat × ExistentialTransformArgumentDescriptor) :=
  [(0, exETAD)]

/-- Example: an apply whose callee is not resolvable (indirect call). -/
def exApplyIndirect : FullApplySite :=
  { referencedFunction := none, calleeArgIndexOfFirstAppliedArg := 0,
    argConcreteTypes := [], origCalleeParamInfos := [] }

/-- Example: initial bookkeeping state. -/
def st0 : OrchState :=
  { NumFunctionsWithExistentialArgsSpecialized := 0, events := [] }

/-- Example: the specialized function an accepting rewriter produces. -/
def exNewFunction : SILFunction :=
  { name := "calleeSpecialized", shouldOptimize := true,
    hasIndirectSILResults := false, hasErrorResult := false,
    inlineStrategy := Inline_t.InlineDefault,
    linkage := SILLinkage.Shared,
    representation := SILFunctionTypeRepresentation.Thin,
    isSerialized := false, body := some { functionArguments := [] } }

/-- Example: a rewriter that always declines. -/
def exRewriterNone : Rewriter := fun _ _ _ _ => none

/-- Example: a rewriter that always succeeds with `exNewFunction`. -/
def exRewriterSome : Rewriter := fun _ _ _ _ => some exNewFunction

theorem accessType_mutable_iff_witness :
    canSpecializeExistentialArgsInFunction exApply =
        AnalyzerResult.ok exDescMap true ∧
    ((exETAD.AccessType = OpenedExistentialAccess.Mutable ↔
       ((exApply.origCalleeParamInfos.getD 0 default).isIndirectMutating =
           true ∨
        (exApply.origCalleeParamInfos.getD 0 default).isConsumed = true)) ∧
     (exETAD.AccessType ≠ OpenedExistentialAccess.Mutable →
       exETAD.AccessType = OpenedExistentialAccess.Immutable)) :=
  ⟨by decide,
   accessType_mutable_iff exApply exDescMap true (by decide) 0 exETAD
     (by decide)⟩

theorem destroyAddrUse_characterization_witness :
    (0, exETAD) ∈ exDescMap ∧
    (∃ F body, exApply.referencedFunction = some F ∧ F.body = some body ∧
      (((body.functionArguments.getD 0
            default).type.preferredExistentialRepresentation =
          ExistentialRepresentation.Class →
        exETAD.DestroyAddrUse = false) ∧
       ((body.functionArguments.getD 0
            default).type.preferredExistentialRepresentation =
          ExistentialRepresentation.Opaque →
        (exETAD.DestroyAddrUse = true ↔
          ∃ ArgUse ∈ (body.functionArguments.getD 0 default).uses,
            ArgUse.user = SILInstKind.DestroyAddrInst)))) :=
  ⟨by decide,
   destroyAddrUse_characterization exApply exDescMap true (by decide) 0
     exETAD (by decide)⟩

theorem descriptorMap_keys_sound_witness :
    (0, exETAD) ∈ exDescMap ∧
    (∃ F body, exApply.referencedFunction = some F ∧ F.body = some body ∧
      0 < body.functionArguments.length ∧
      (body.functionArguments.getD 0 default).type.isExistentialType =
        true ∧
      (body.functionArguments.getD 0 default).type.isAnyObject = false ∧
      (body.functionArguments.getD 0 default).type.isAny = false ∧
      ((body.functionArguments.getD 0
          default).type.preferredExistentialRepresentation =
            ExistentialRepresentation.Opaque ∨
       (body.functionArguments.getD 0
          default).type.preferredExistentialRepresentation =
            ExistentialRepresentation.Class) ∧
      (exApply.argConcreteTypes.getD 0 none).isSome = true) :=
  ⟨by decide,
   descriptorMap_keys_sound exApply exDescMap true (by decide) 0 exETAD
     (by decide)⟩

theorem rejection_leaves_state_unchanged_witness :
    FullApplySite.isa (SILInstruction.fullApply exApplyIndirect) =
        some exApplyIndirect ∧
    processInstruction exRewriterNone st0
      (SILInstruction.fullApply exApplyIndirect) = some st0 :=
  ⟨by decide,
   (rejection_leaves_state_unchanged exRewriterNone st0
      (SILInstruction.fullApply exApplyIndirect) exApplyIndirect
      (by decide)).1 (by decide)⟩

theorem success_bookkeeping_witness :
    exRewriterSome exCallee (manglerOf exCallee)
        (buildArgumentDescList exBody) exDescMap = some exNewFunction ∧
    processInstruction exRewriterSome st0
        (SILInstruction.fullApply exApply) =
      some { NumFunctionsWithExistentialArgsSpecialized := 1,
             events :=
               [PMEvent.addFunctionToPassManagerWorklist exNewFunction
                  exCallee,
                PMEvent.invalidateAnalysis exCallee
                  InvalidationKind.Everything] } :=
  ⟨rfl,
   (success_bookkeeping exRewriterSome st0
      (SILInstruction.fullApply exApply) exApply exCallee exBody exDescMap
      (by decide) (by decide) (by decide) (by decide) (by decide)).1
     exNewFunction rfl⟩

theorem rewriter_receives_full_descriptor_list_witness :
    exDescMap.length = 1 ∧ exBody.functionArguments.length = 2 ∧
    (buildArgumentDescList exBody).length =
      exBody.functionArguments.length :=
  ⟨by decide, by decide,
   (rewriter_receives_full_descriptor_list exRewriterSome st0
      (SILInstruction.fullApply exApply) exApply exCallee exBody exDescMap
      (by decide) (by decide) (by decide) (by decide) (by decide)).2.1⟩

theorem analyzer_flag_iff_descriptor_inserted_witness :
    canSpecializeExistentialArgsInFunction exApply =
        AnalyzerResult.ok exDescMap true ∧
    (true = true ↔ exDescMap ≠ []) :=
  ⟨by decide,
   analyzer_flag_iff_descriptor_inserted exApply exDescMap true
     (by decide)⟩

theorem assertion_abort_characterization_witness :
    canSpecializeCalleeFunction exApply = true ∧
    (exApply.calleeArgIndexOfFirstAppliedArg = 0 →
      ∃ descMap flag,
        canSpecializeExistentialArgsInFunction exApply =
          AnalyzerResult.ok descMap flag) :=
  ⟨by decide, (assertion_abort_characterization exApply (by decide)).2⟩

theorem analyzer_never_faults_after_filter_witness :
    canSpecializeCalleeFunction exApply = true ∧
    ((∃ Callee, exApply.referencedFunction = some Callee ∧
        Callee.body.isSome = true) ∧
     canSpecializeExistentialArgsInFunction exApply ≠
       AnalyzerResult.fault) :=
  ⟨by decide, analyzer_never_faults_after_filter exApply (by decide)⟩
